import Mathlib

/-
  Verification development for the valutatrade_hub repository.

  Shallow embedding of the core of the code base:
    - `core/models.py`     (Wallet, Portfolio)
    - `core/usecases.py`   (TradingUsecases._get_exchange_rate, get_portfolio)
    - `core/utils.py`      (validate_currency_code, load_user_portfolio)
    - `core/currencies.py` (the process-wide currency registry)
    - `parser_service/updater.py` (RatesUpdater.run_update)
    - `infra/database.py`  (DatabaseManager.are_rates_fresh)

  Modelling conventions:
    - Python strings are lists of character codes (`Str := List Nat`);
      `str.upper` / `str.lower` / `str.strip` are modelled for the ASCII
      range, which covers every currency code and pair key in the program.
    - Python floats are modelled by `PyFloat`: a rational number, +inf,
      -inf or nan, with IEEE-style comparison and arithmetic (rounding and
      overflow of finite values are not modelled; none of the claims
      depends on them).
    - A Python function that can raise is embedded as a function into
      `Except Err _`; each constructor of `Err` names one raise site
      (the spec-level names RateNotFoundError / InvalidAmountError
      correspond to the ValueError raises in the source).
-/

namespace ValutaTrade

/-- A Python string, as its list of character code points. -/
abbrev Str := List Nat

/-- Code points of a Lean string literal (used to write concrete Python strings). -/
def codes (s : String) : Str := s.toList.map Char.toNat

/-- One character of Python `str.upper` (ASCII range, which covers all codes used). -/
def upChar (c : Nat) : Nat := if 97 ≤ c ∧ c ≤ 122 then c - 32 else c

/-- One character of Python `str.lower` (ASCII range). -/
def lowChar (c : Nat) : Nat := if 65 ≤ c ∧ c ≤ 90 then c + 32 else c

/-- Python `str.upper` on the ASCII range. -/
def pyUpper (s : Str) : Str := s.map upChar

/-- Python `str.lower` on the ASCII range. -/
def pyLower (s : Str) : Str := s.map lowChar

/-- Whitespace as removed by Python `str.strip`. -/
def isSpaceCode (c : Nat) : Bool := c = 32 || c = 9 || c = 10 || c = 13 || c = 11 || c = 12

/-- Python `str.strip` (both ends). -/
def pyStrip (s : Str) : Str :=
  ((s.dropWhile isSpaceCode).reverse.dropWhile isSpaceCode).reverse

/-- A Python float: finite value (rationals; rounding not modelled), ±infinity, or nan. -/
inductive PyFloat where
  | finite (q : ℚ)
  | inf
  | ninf
  | nan
deriving DecidableEq, Repr

namespace PyFloat

/-- Python `x <= y` on floats (any comparison with nan is False). -/
def le : PyFloat → PyFloat → Bool
  | finite a, finite b => a ≤ b
  | finite _, inf => true
  | finite _, ninf => false
  | inf, inf => true
  | inf, finite _ => false
  | inf, ninf => false
  | ninf, ninf => true
  | ninf, finite _ => true
  | ninf, inf => true
  | nan, _ => false
  | _, nan => false

/-- Python `x < y` on floats (any comparison with nan is False). -/
def lt : PyFloat → PyFloat → Bool
  | finite a, finite b => a < b
  | finite _, inf => true
  | finite _, ninf => false
  | inf, _ => false
  | ninf, ninf => false
  | ninf, finite _ => true
  | ninf, inf => true
  | _, nan => false
  | nan, _ => false

/-- Float addition (IEEE special cases; finite overflow not modelled). -/
def add : PyFloat → PyFloat → PyFloat
  | finite a, finite b => finite (a + b)
  | finite _, inf => inf
  | finite _, ninf => ninf
  | inf, finite _ => inf
  | inf, inf => inf
  | inf, ninf => nan
  | ninf, finite _ => ninf
  | ninf, inf => nan
  | ninf, ninf => ninf
  | nan, _ => nan
  | _, nan => nan

/-- Float negation. -/
def neg : PyFloat → PyFloat
  | finite a => finite (-a)
  | inf => ninf
  | ninf => inf
  | nan => nan

/-- Float subtraction. -/
def sub (x y : PyFloat) : PyFloat := add x (neg y)

/-- Float multiplication (IEEE special cases; `inf * 0 = nan`). -/
def mul : PyFloat → PyFloat → PyFloat
  | finite a, finite b => finite (a * b)
  | finite a, inf => if 0 < a then inf else if a < 0 then ninf else nan
  | finite a, ninf => if 0 < a then ninf else if a < 0 then inf else nan
  | inf, finite b => if 0 < b then inf else if b < 0 then ninf else nan
  | ninf, finite b => if 0 < b then ninf else if b < 0 then inf else nan
  | inf, inf => inf
  | inf, ninf => ninf
  | ninf, inf => ninf
  | ninf, ninf => inf
  | nan, _ => nan
  | _, nan => nan

end PyFloat

/-- The raise sites of the embedded code.  Names follow the spec's error
taxonomy where it has one (the source raises built-in ValueError /
TypeError at several of these sites; the constructor records which). -/
inductive Err where
  /-- ValueError «Сумма должна быть положительной» in `Wallet._validate_amount`
      (the spec's InvalidAmountError). -/
  | invalidAmount
  /-- `InsufficientFundsError(currency_code, available, required)`. -/
  | insufficientFunds (currency_code : Str) (available required : PyFloat)
  /-- ValueError «Баланс не может быть отрицательным» in the `balance` setter. -/
  | negativeBalance
  /-- ValueError «Код валюты не может быть пустым». -/
  | emptyCurrencyCode
  /-- ValueError «Недопустимая валюта» in `Wallet._validate_currency`. -/
  | invalidCurrency (code : Str)
  /-- `CurrencyNotFoundError(code)`. -/
  | currencyNotFound (code : Str)
  /-- `WalletNotFoundError(code)`. -/
  | walletNotFound (code : Str)
  /-- ValueError «Не удалось найти курс обмена между {from} и {to}» in
      `_get_exchange_rate` (the spec's RateNotFoundError, carrying both codes). -/
  | rateNotFound (from_currency to_currency : Str)
  /-- ZeroDivisionError from Python float division by `0.0`. -/
  | zeroDivision
  /-- TypeError (e.g. `datetime.fromisoformat` applied to a non-string). -/
  | typeError
deriving DecidableEq, Repr

namespace PyFloat

/-- Python float division: raises ZeroDivisionError on a zero divisor,
otherwise IEEE-style (finite rounding not modelled). -/
def div : PyFloat → PyFloat → Except Err PyFloat
  | _, finite 0 => .error .zeroDivision
  | finite a, finite b => .ok (finite (a / b))
  | finite _, inf => .ok (finite 0)
  | finite _, ninf => .ok (finite 0)
  | inf, finite b => .ok (if 0 < b then inf else ninf)
  | ninf, finite b => .ok (if 0 < b then ninf else inf)
  | inf, inf => .ok nan
  | inf, ninf => .ok nan
  | ninf, inf => .ok nan
  | ninf, ninf => .ok nan
  | nan, _ => .ok nan
  | _, nan => .ok nan

end PyFloat

/-- The process-wide currency registry, as populated at startup in
`core/currencies.py` (`register_currency` calls at module scope). -/
def CURRENCY_REGISTRY : List Str :=
  [codes "USD", codes "EUR", codes "GBP", codes "RUB",
   codes "BTC", codes "ETH", codes "SOL"]

/-- `get_currency` from `core/currencies.py`: upper-cases the code and
looks it up in the registry; `CurrencyNotFoundError` if absent.
(The registry value is modelled by its code.) -/
def get_currency (code : Str) : Except Err Str :=
  let code_upper := pyUpper code
  if code_upper ∈ CURRENCY_REGISTRY then .ok code_upper
  else .error (.currencyNotFound code_upper)

/-- A wallet: currency code and float balance (`core/models.py`). -/
structure Wallet where
  currency_code : Str
  balance : PyFloat
deriving DecidableEq, Repr

namespace Wallet

/-- `Wallet._validate_amount`: the argument is always a number in this
typed model, so only the `amount <= 0` ValueError remains. -/
def validate_amount (amount : PyFloat) : Except Err Unit :=
  if PyFloat.le amount (.finite 0) then .error .invalidAmount else .ok ()

/-- `Wallet._validate_currency`: empty/blank check, then registry lookup
(re-raised as ValueError «Недопустимая валюта»). -/
def validate_currency (currency_code : Str) : Except Err Unit :=
  if pyStrip currency_code = [] then .error .emptyCurrencyCode
  else
    match get_currency currency_code with
    | .ok _ => .ok ()
    | .error _ => .error (.invalidCurrency currency_code)

/-- `Wallet.deposit`. -/
def deposit (w : Wallet) (amount : PyFloat) : Except Err Wallet := do
  validate_amount amount
  .ok { w with balance := PyFloat.add w.balance amount }

/-- `Wallet.withdraw`. -/
def withdraw (w : Wallet) (amount : PyFloat) : Except Err Wallet := do
  validate_amount amount
  if PyFloat.lt w.balance amount then
    .error (.insufficientFunds w.currency_code w.balance amount)
  else
    .ok { w with balance := PyFloat.sub w.balance amount }

/-- `Wallet.__init__(currency_code, balance=0.0)`: validates the currency,
sets `currency_code = currency_code.upper()`, `_balance = 0.0`, then calls
`self.deposit(balance)` — including on the default `balance = 0.0`. -/
def init (currency_code : Str) (balance : PyFloat := .finite 0) : Except Err Wallet := do
  validate_currency currency_code
  Wallet.deposit { currency_code := pyUpper currency_code, balance := .finite 0 } balance

/-- The `balance` property setter (numeric in this typed model; rejects
negative values with ValueError). -/
def set_balance (w : Wallet) (value : PyFloat) : Except Err Wallet :=
  if PyFloat.lt value (.finite 0) then .error .negativeBalance
  else .ok { w with balance := value }

end Wallet

/-- Insertion-ordered Python dict lookup (`k in d` / `d[k]`). -/
def dictGet {α : Type} (d : List (Str × α)) (k : Str) : Option α :=
  match d with
  | [] => none
  | (k', v) :: rest => if k' = k then some v else dictGet rest k

/-- Insertion-ordered Python dict update `d[k] = v` (overwrite in place,
else append). -/
def dictSet {α : Type} (d : List (Str × α)) (k : Str) (v : α) : List (Str × α) :=
  match d with
  | [] => [(k, v)]
  | (k', v') :: rest => if k' = k then (k, v) :: rest else (k', v') :: dictSet rest k v

/-- A user's portfolio (`core/models.py`): the `_wallets` dict. -/
structure Portfolio where
  user_id : Int
  wallets : List (Str × Wallet)
deriving DecidableEq, Repr

namespace Portfolio

/-- `Portfolio.add_currency`: upper-case the code; return the existing
wallet, else construct `Wallet(currency_code)` and store it. -/
def add_currency (p : Portfolio) (currency_code : Str) :
    Except Err (Wallet × Portfolio) :=
  let cu := pyUpper currency_code
  match dictGet p.wallets cu with
  | some w => .ok (w, p)
  | none =>
    match Wallet.init cu with
    | .error e => .error e
    | .ok new_wallet => .ok (new_wallet, { p with wallets := dictSet p.wallets cu new_wallet })

/-- `Portfolio.get_wallet`: upper-case the code; `WalletNotFoundError` if absent. -/
def get_wallet (p : Portfolio) (currency_code : Str) : Except Err Wallet :=
  let cu := pyUpper currency_code
  match dictGet p.wallets cu with
  | some w => .ok w
  | none => .error (.walletNotFound cu)

end Portfolio

/-- The canonical pair key `f"{base}_{quote}"`. -/
def pairKey (base quote : Str) : Str := base ++ codes "_" ++ quote

/-- The anchor currency hard-coded in `_get_exchange_rate` and
`get_total_value`. -/
def BASE_CURRENCY : Str := codes "USD"

/-- Lines 128-136 of `core/usecases.py`: the `if from == USD / elif to == USD`
block.  `none` means the block fell through without returning. -/
def anchor_step (exchange_rates : List (Str × PyFloat)) (from_currency to_currency : Str) :
    Option (Except Err PyFloat) :=
  if from_currency = BASE_CURRENCY then
    match dictGet exchange_rates (pairKey to_currency BASE_CURRENCY) with
    | some r => some (PyFloat.div (.finite 1) r)
    | none => none
  else if to_currency = BASE_CURRENCY then
    match dictGet exchange_rates (pairKey from_currency BASE_CURRENCY) with
    | some r => some (.ok r)
    | none => none
  else none

/-- `TradingUsecases._get_exchange_rate` (`core/usecases.py`, lines 103-147):
direct pair, inverse pair, the anchor block, double triangulation, and
finally the ValueError naming both currencies (the spec's
RateNotFoundError). -/
def _get_exchange_rate (exchange_rates : List (Str × PyFloat))
    (from_currency to_currency : Str) : Except Err PyFloat :=
  match dictGet exchange_rates (pairKey from_currency to_currency) with
  | some r => .ok r
  | none =>
    match dictGet exchange_rates (pairKey to_currency from_currency) with
    | some r => PyFloat.div (.finite 1) r
    | none =>
      match anchor_step exchange_rates from_currency to_currency with
      | some res => res
      | none =>
        match dictGet exchange_rates (pairKey from_currency BASE_CURRENCY),
              dictGet exchange_rates (pairKey to_currency BASE_CURRENCY) with
        | some from_rate, some to_rate => PyFloat.div from_rate to_rate
        | _, _ => .error (.rateNotFound from_currency to_currency)

/-- First defined element of a list of attempts. -/
def firstSome {α : Type} : List (Option α) → Option α
  | [] => none
  | some a :: _ => some a
  | none :: rest => firstSome rest

/-- Spec §4.4, transcribed from the spec's words for the refinement
comparison of claim C3: "try, in order: (1) direct pair `from_to`;
(2) inverse of pair `to_from` (rate = `1 / cached_rate`); (3) triangulation
when one side equals the anchor — if `from == anchor`, use inverse of
`to_anchor`; if `to == anchor`, use `from_anchor` directly; (4) double
triangulation ... `rate = rate(from_anchor) / rate(to_anchor)`"; else
RateNotFoundError(from, to). -/
def resolveSpec (pairs : List (Str × PyFloat)) (f t : Str) : Except Err PyFloat :=
  (firstSome
    [ (dictGet pairs (pairKey f t)).map .ok,
      (dictGet pairs (pairKey t f)).map (fun r => PyFloat.div (.finite 1) r),
      (if f = BASE_CURRENCY then
         (dictGet pairs (pairKey t BASE_CURRENCY)).map (fun r => PyFloat.div (.finite 1) r)
       else if t = BASE_CURRENCY then
         (dictGet pairs (pairKey f BASE_CURRENCY)).map .ok
       else none),
      (match dictGet pairs (pairKey f BASE_CURRENCY), dictGet pairs (pairKey t BASE_CURRENCY) with
       | some fr, some tr => some (PyFloat.div fr tr)
       | _, _ => none) ]).getD (.error (.rateNotFound f t))

/-- The loop body of `Portfolio.get_total_value` (lines 213-225 of
`core/models.py`), threading the `total_value` accumulator. -/
def total_value_loop (exchange_rates : List (Str × PyFloat)) (base_currency : Str) :
    List (Str × Wallet) → PyFloat → Except Err PyFloat
  | [], total_value => .ok total_value
  | (_, w) :: rest, total_value =>
    if w.currency_code = base_currency then
      total_value_loop exchange_rates base_currency rest (PyFloat.add total_value w.balance)
    else
      match dictGet exchange_rates (pairKey w.currency_code base_currency) with
      | some r =>
        total_value_loop exchange_rates base_currency rest
          (PyFloat.add total_value (PyFloat.mul w.balance r))
      | none =>
        match dictGet exchange_rates (pairKey base_currency w.currency_code) with
        | some r =>
          match PyFloat.div w.balance r with
          | .error e => .error e
          | .ok v => total_value_loop exchange_rates base_currency rest (PyFloat.add total_value v)
        | none => total_value_loop exchange_rates base_currency rest total_value

/-- `Portfolio.get_total_value(exchange_rates, base_currency="USD")`. -/
def Portfolio.get_total_value (p : Portfolio) (exchange_rates : List (Str × PyFloat))
    (base_currency : Str := codes "USD") : Except Err PyFloat :=
  total_value_loop exchange_rates (pyUpper base_currency) p.wallets (.finite 0)

/-- The value one wallet contributes to the total, per the amended reading
of claim C6: own balance for the anchor currency, else direct pair
(`balance * rate`), else inverse pair (`balance / rate`), else `0`. -/
def wallet_value (exchange_rates : List (Str × PyFloat)) (base_currency : Str)
    (w : Wallet) : Except Err PyFloat :=
  if w.currency_code = base_currency then .ok w.balance
  else
    match dictGet exchange_rates (pairKey w.currency_code base_currency) with
    | some r => .ok (PyFloat.mul w.balance r)
    | none =>
      match dictGet exchange_rates (pairKey base_currency w.currency_code) with
      | some r => PyFloat.div w.balance r
      | none => .ok (.finite 0)

/-- Sum of per-wallet values (declarative form of the valuation). -/
def sum_wallet_values (exchange_rates : List (Str × PyFloat)) (base_currency : Str) :
    List Wallet → Except Err PyFloat
  | [] => .ok (.finite 0)
  | w :: ws => do
    let v ← wallet_value exchange_rates base_currency w
    let s ← sum_wallet_values exchange_rates base_currency ws
    .ok (PyFloat.add v s)

/-- One entry of the per-wallet breakdown built in
`TradingUsecases.get_portfolio` (lines 280-293): the resolver's ValueError
(RateNotFoundError) is caught and flagged as `rate = None`; any other
exception (e.g. ZeroDivisionError) propagates. -/
structure WalletInfo where
  currency : Str
  balance : PyFloat
  rate : Option PyFloat
  value_in_base : Option PyFloat
deriving DecidableEq, Repr

/-- The `try/except ValueError` body producing one breakdown entry. -/
def wallet_info_entry (exchange_rates : List (Str × PyFloat)) (base_currency : Str)
    (currency_code : Str) (w : Wallet) : Except Err WalletInfo :=
  match _get_exchange_rate exchange_rates currency_code base_currency with
  | .ok r =>
    .ok { currency := currency_code, balance := w.balance,
          rate := some r, value_in_base := some (PyFloat.mul w.balance r) }
  | .error (.rateNotFound _ _) =>
    .ok { currency := currency_code, balance := w.balance,
          rate := none, value_in_base := none }
  | .error e => .error e

/-- The breakdown loop of `get_portfolio`. -/
def wallets_info_loop (exchange_rates : List (Str × PyFloat)) (base_currency : Str) :
    List (Str × Wallet) → Except Err (List WalletInfo)
  | [] => .ok []
  | (code, w) :: rest => do
    let e ← wallet_info_entry exchange_rates base_currency code w
    let rest_info ← wallets_info_loop exchange_rates base_currency rest
    .ok (e :: rest_info)

/-- The result of `TradingUsecases.get_portfolio`. -/
structure PortfolioView where
  user_id : Int
  wallets : List WalletInfo
  total_value : PyFloat
  base_currency : Str
deriving DecidableEq, Repr

/-- `TradingUsecases.get_portfolio(user_id, base_currency="USD")`, with the
portfolio already loaded.  Note: the total upper-cases `base_currency`
inside `get_total_value`; the breakdown passes it through unchanged. -/
def get_portfolio (exchange_rates : List (Str × PyFloat)) (portfolio : Portfolio)
    (base_currency : Str := codes "USD") : Except Err PortfolioView := do
  let total_value ← portfolio.get_total_value exchange_rates base_currency
  let wallets_info ← wallets_info_loop exchange_rates base_currency portfolio.wallets
  .ok { user_id := portfolio.user_id, wallets := wallets_info,
        total_value := total_value, base_currency := base_currency }

/-- `validate_currency_code` from `core/utils.py`: strip, upper-case, reject
empty, then registry lookup (re-raised as `CurrencyNotFoundError` with the
normalized code). -/
def validate_currency_code (currency_code : Str) : Except Err Str :=
  let c := pyUpper (pyStrip currency_code)
  if c = [] then .error .emptyCurrencyCode
  else
    match get_currency c with
    | .ok _ => .ok c
    | .error _ => .error (.currencyNotFound c)

/-- The per-wallet step of `load_user_portfolio` (`core/utils.py`,
lines 110-113): `wallet = Wallet(currency_code)` followed by
`wallet.balance = stored`. -/
def load_wallet (currency_code : Str) (stored_balance : PyFloat) : Except Err Wallet := do
  let w ← Wallet.init currency_code
  w.set_balance stored_balance

/- ----------------------------------------------------------------
   The ledger operation language for claim C9.
   ---------------------------------------------------------------- -/

/-- A wallet mutation: one `deposit` or `withdraw` call. -/
inductive LedgerOp where
  | deposit (amount : PyFloat)
  | withdraw (amount : PyFloat)
deriving DecidableEq, Repr

/-- Apply one ledger operation. -/
def apply_op (w : Wallet) : LedgerOp → Except Err Wallet
  | .deposit a => w.deposit a
  | .withdraw a => w.withdraw a

/-- Run a sequence of ledger operations; the whole run fails as soon as
one operation raises. -/
def run_ops (w : Wallet) : List LedgerOp → Except Err Wallet
  | [] => .ok w
  | op :: rest => do
    let w2 ← apply_op w op
    run_ops w2 rest

/-- Sum of the deposited amounts of a ledger sequence. -/
def deposits_total : List LedgerOp → PyFloat
  | [] => .finite 0
  | .deposit a :: rest => PyFloat.add a (deposits_total rest)
  | .withdraw _ :: rest => deposits_total rest

/-- Sum of the withdrawn amounts of a ledger sequence. -/
def withdrawals_total : List LedgerOp → PyFloat
  | [] => .finite 0
  | .deposit _ :: rest => withdrawals_total rest
  | .withdraw a :: rest => PyFloat.add a (withdrawals_total rest)

/-- The balances reachable by successful wallet operations from a
non-negative start: a non-negative finite value, `inf`, or `nan`. -/
def GoodBalance (b : PyFloat) : Prop :=
  b = .nan ∨ b = .inf ∨ ∃ q : ℚ, b = .finite q ∧ 0 ≤ q

/- ----------------------------------------------------------------
   The rates updater (`parser_service/updater.py`).
   ---------------------------------------------------------------- -/

/-- One cached rate entry `{rate, updated_at, source}`. -/
structure RateEntry where
  rate : PyFloat
  updated_at : Str
  source : Str
deriving DecidableEq, Repr

/-- The concrete API client classes registered with the updater. -/
inductive ClientKind where
  | coingecko
  | exchangerate
deriving DecidableEq, Repr

/-- A configured API client, modelled by its class together with the
outcome its `fetch_rates()` call produces during the run under
consideration: the normalized pair dict on success, or the
ApiRequestError message on failure. -/
structure ApiClient where
  kind : ClientKind
  fetch_rates : Except Str (List (Str × RateEntry))
deriving Repr

/-- `type(client).__name__`. -/
def client_name : ClientKind → Str
  | .coingecko => codes "CoinGeckoClient"
  | .exchangerate => codes "ExchangeRateApiClient"

/-- The source-name each filter branch of `run_update` recognizes. -/
def filter_name : ClientKind → Str
  | .coingecko => codes "coingecko"
  | .exchangerate => codes "exchangerate"

/-- Python `s.split('_')`. -/
def splitUnderscore : Str → List Str
  | [] => [[]]
  | c :: rest =>
    let r := splitUnderscore rest
    if c = 95 then [] :: r
    else
      match r with
      | [] => [[c]]
      | h :: t => (c :: h) :: t

/-- One entry of the append-only history file. -/
structure HistoryRecord where
  id : Str
  from_currency : Str
  to_currency : Str
  rate : PyFloat
  timestamp : Str
  source : Str
  client : Str
deriving DecidableEq, Repr

/-- The history record built for one updated pair (lines 83-93 of
`updater.py`); the pair keys produced by the clients always contain an
underscore, so the two indexed accesses are modelled totally. -/
def make_history_record (client : ClientKind) (pair : Str) (rate_data : RateEntry) :
    HistoryRecord :=
  { id := pair ++ codes "_" ++ rate_data.updated_at
    from_currency := (splitUnderscore pair).getD 0 []
    to_currency := (splitUnderscore pair).getD 1 []
    rate := rate_data.rate
    timestamp := rate_data.updated_at
    source := rate_data.source
    client := client_name client }

/-- `MAX_HISTORY_SIZE` in `RatesStorage.append_to_history`. -/
def MAX_HISTORY_SIZE : Nat := 10000

/-- `RatesStorage.append_to_history`: append, then keep the most recent
`MAX_HISTORY_SIZE` records. -/
def append_to_history (history : List HistoryRecord) (record : HistoryRecord) :
    List HistoryRecord :=
  let h := history ++ [record]
  if MAX_HISTORY_SIZE < h.length then h.drop (h.length - MAX_HISTORY_SIZE) else h

/-- The run summary returned by `run_update`. -/
structure UpdateResults where
  success : Bool
  updated_pairs : List Str
  errors : List Str
  timestamp : Str
deriving DecidableEq, Repr

/-- The error message recorded for a failed provider. -/
def fetch_error_message (k : ClientKind) (e : Str) : Str :=
  codes "Failed to fetch rates from " ++ client_name k ++ codes ": " ++ e

/-- The inner `for pair, rate_data in new_rates.items()` loop of
`run_update`: merge the pair, record it as updated, append a history
record. -/
def apply_new_rates (client : ClientKind) :
    List (Str × RateEntry) → List (Str × RateEntry) → UpdateResults → List HistoryRecord →
    List (Str × RateEntry) × UpdateResults × List HistoryRecord
  | [], pairs, results, history => (pairs, results, history)
  | (pair, rate_data) :: rest, pairs, results, history =>
    apply_new_rates client rest (dictSet pairs pair rate_data)
      { results with updated_pairs := results.updated_pairs ++ [pair] }
      (append_to_history history (make_history_record client pair rate_data))

/-- The `for client in clients_to_use` loop of `run_update`: a successful
fetch is merged; an ApiRequestError appends an error message, clears
`success`, and the loop continues with the next client. -/
def run_clients :
    List ApiClient → List (Str × RateEntry) → UpdateResults → List HistoryRecord →
    List (Str × RateEntry) × UpdateResults × List HistoryRecord
  | [], pairs, results, history => (pairs, results, history)
  | client :: rest, pairs, results, history =>
    match client.fetch_rates with
    | .ok new_rates =>
      let s := apply_new_rates client.kind new_rates pairs results history
      run_clients rest s.1 s.2.1 s.2.2
    | .error e =>
      run_clients rest pairs
        { results with errors := results.errors ++ [fetch_error_message client.kind e],
                       success := false }
        history

/-- The source filter of `run_update` (lines 60-67): `if source:` is Python
truthiness, so an empty string disables filtering; only the two literal
names "coingecko" and "exchangerate" (after lower-casing) select a class;
any other name falls through and leaves the full client list in place. -/
def select_clients (clients : List ApiClient) (source : Option Str) : List ApiClient :=
  match source with
  | none => clients
  | some s =>
    if s = [] then clients
    else
      let source_lower := pyLower s
      if source_lower = filter_name .coingecko then
        clients.filter (fun c => decide (c.kind = ClientKind.coingecko))
      else if source_lower = filter_name .exchangerate then
        clients.filter (fun c => decide (c.kind = ClientKind.exchangerate))
      else clients

/-- The rates document as loaded by `load_current_rates()` (`{}` on a
missing or corrupt file, hence both fields may be absent). -/
structure LoadedRatesDoc where
  pairs : Option (List (Str × RateEntry))
  last_refresh : Option Str
deriving DecidableEq, Repr

/-- The rates document written back by `run_update` via
`save_current_rates`. -/
structure RatesDoc where
  pairs : List (Str × RateEntry)
  last_refresh : Str
deriving DecidableEq, Repr

/-- Everything one `run_update` call produces: the persisted snapshot, the
final history, and the returned summary. -/
structure RunOutcome where
  saved : RatesDoc
  history : List HistoryRecord
  results : UpdateResults
deriving DecidableEq, Repr

/-- `RatesUpdater.run_update(source)`.  `loaded` is the result of
`load_current_rates()`, `history0` the current history file, `t_start` and
`t_end` the values of the two `datetime.utcnow().isoformat()` calls (the
run's result timestamp and the final `last_refresh` stamp). -/
def run_update (clients : List ApiClient) (source : Option Str)
    (loaded : LoadedRatesDoc) (history0 : List HistoryRecord)
    (t_start t_end : Str) : RunOutcome :=
  let pairs0 := loaded.pairs.getD []
  let results0 : UpdateResults :=
    { success := true, updated_pairs := [], errors := [], timestamp := t_start }
  let clients_to_use := select_clients clients source
  let s := run_clients clients_to_use pairs0 results0 history0
  { saved := { pairs := s.1, last_refresh := t_end }, history := s.2.2, results := s.2.1 }

/-- The merged pair mapping a run produces, written declaratively: the
successful fetches folded over the loaded pairs in client order. -/
def merged_pairs (clients : List ApiClient) (pairs0 : List (Str × RateEntry)) :
    List (Str × RateEntry) :=
  clients.foldl
    (fun acc c =>
      match c.fetch_rates with
      | .ok new_rates => new_rates.foldl (fun a pr => dictSet a pr.1 pr.2) acc
      | .error _ => acc)
    pairs0

/-- Whether a client's fetch succeeds in the run under consideration. -/
def fetch_ok (c : ApiClient) : Bool :=
  match c.fetch_rates with
  | .ok _ => true
  | .error _ => false

/-- The error-list entry a client contributes (none on success). -/
def client_error_entry (c : ApiClient) : Option Str :=
  match c.fetch_rates with
  | .error e => some (fetch_error_message c.kind e)
  | .ok _ => none

/-- The `updated_pairs` block a client contributes (none on failure). -/
def client_updated_keys (c : ApiClient) : Option (List Str) :=
  match c.fetch_rates with
  | .ok new_rates => some (new_rates.map Prod.fst)
  | .error _ => none

/- ----------------------------------------------------------------
   Freshness (`DatabaseManager.are_rates_fresh`, infra/database.py).
   ---------------------------------------------------------------- -/

/-- A JSON value found under the `last_refresh` key. -/
inductive JsonVal where
  | jstr (s : Str)
  | jnum (q : ℚ)
  | jnull
deriving DecidableEq, Repr

/-- What `get_rates()` returned: a falsy document (`[]` after a decode
error, or an empty dict), or a dict with or without a `last_refresh` key. -/
inductive LoadedRates where
  | falsy
  | dict (last_refresh : Option JsonVal)
deriving DecidableEq, Repr

/-- `DatabaseManager.are_rates_fresh`.  `datetime.fromisoformat` is
abstracted by `parse_iso` over an abstract rational time-line: `none`
models the ValueError it raises on a malformed string — and that is the
only exception the source catches.  Applied to a non-string value it
raises TypeError, which `except ValueError` does not intercept. -/
def are_rates_fresh (parse_iso : Str → Option ℚ) (rates : LoadedRates)
    (now ttl_seconds : ℚ) : Except Err Bool :=
  match rates with
  | .falsy => .ok false
  | .dict none => .ok false
  | .dict (some v) =>
    match v with
    | .jstr s =>
      match parse_iso s with
      | some last_refresh => .ok (decide (now - last_refresh < ttl_seconds))
      | none => .ok false
    | _ => .error .typeError

/-- "Every key of the wallet dict is upper-case." -/
def KeysUpper (wallets : List (Str × Wallet)) : Prop :=
  ∀ k ∈ wallets.map Prod.fst, pyUpper k = k

/- ================================================================
   Theorems.
   ================================================================ -/

theorem PyFloat.add_zero' (x : PyFloat) : x.add (.finite 0) = x := by
  cases x <;> simp [PyFloat.add]

theorem PyFloat.zero_add' (x : PyFloat) : (PyFloat.finite 0).add x = x := by
  cases x <;> simp [PyFloat.add]

theorem PyFloat.add_comm' (x y : PyFloat) : x.add y = y.add x := by
  cases x <;> cases y <;> simp [PyFloat.add, add_comm]

theorem PyFloat.add_assoc' (x y z : PyFloat) : (x.add y).add z = x.add (y.add z) := by
  cases x <;> cases y <;> cases z <;> simp [PyFloat.add, add_assoc]

theorem PyFloat.neg_add' (x y : PyFloat) : (x.add y).neg = x.neg.add y.neg := by
  cases x <;> cases y <;> simp [PyFloat.add, PyFloat.neg, neg_add, add_comm]

theorem PyFloat.sub_zero' (x : PyFloat) : x.sub (.finite 0) = x := by
  simp [PyFloat.sub, PyFloat.neg, PyFloat.add_zero']

theorem PyFloat.add_sub_swap (D W a : PyFloat) :
    (D.sub W).add a = (D.add a).sub W := by
  simp only [PyFloat.sub, PyFloat.add_assoc']
  simp only [PyFloat.add_comm' W.neg a, PyFloat.add_assoc']

theorem PyFloat.sub_sub' (D W a : PyFloat) : (D.sub W).sub a = D.sub (W.add a) := by
  simp [PyFloat.sub, PyFloat.neg_add', PyFloat.add_assoc']

theorem Wallet.deposit_ok_iff (w w2 : Wallet) (a : PyFloat) :
    w.deposit a = .ok w2 ↔
      PyFloat.le a (.finite 0) = false ∧ w2 = { w with balance := w.balance.add a } := by
  cases h : PyFloat.le a (.finite 0) <;>
    simp [Wallet.deposit, Wallet.validate_amount, h, eq_comm, Bind.bind, Except.bind]

theorem Wallet.withdraw_ok_iff (w w2 : Wallet) (a : PyFloat) :
    w.withdraw a = .ok w2 ↔
      PyFloat.le a (.finite 0) = false ∧ PyFloat.lt w.balance a = false ∧
        w2 = { w with balance := w.balance.sub a } := by
  cases h : PyFloat.le a (.finite 0) <;>
    cases h2 : PyFloat.lt w.balance a <;>
      simp [Wallet.withdraw, Wallet.validate_amount, h, h2, eq_comm, Bind.bind, Except.bind]

/-- C1 (status: code_bug).  The claim — and the code's own docstrings —
say `add_currency` on a registered, not-yet-held currency returns a fresh
zero-balance wallet.  The code instead raises: `Wallet.__init__` sets
`_balance = 0.0` and then calls `self.deposit(balance)` with the default
`balance = 0.0`, and `_validate_amount` rejects `0.0 <= 0` with
ValueError («Сумма должна быть положительной»).  Evaluated here at the
failing input: an empty portfolio and the registered code "EUR". -/
theorem C1_add_currency_raises_on_fresh_wallet :
    Portfolio.add_currency ⟨1, []⟩ (codes "EUR") = .error .invalidAmount ∧
    Wallet.init (codes "EUR") = .error .invalidAmount := by
  constructor <;> rfl

/-- C2 counterexample: with an empty cache, resolving EUR → EUR does not
return 1.0 — the code has no identity shortcut and fails with the
RateNotFoundError-style ValueError. -/
theorem C2_identity_counterexample :
    _get_exchange_rate [] (codes "EUR") (codes "EUR")
        = .error (.rateNotFound (codes "EUR") (codes "EUR")) ∧
    _get_exchange_rate [] (codes "EUR") (codes "EUR") ≠ .ok (.finite 1) := by
  refine ⟨rfl, ?_⟩
  intro h
  rw [show _get_exchange_rate [] (codes "EUR") (codes "EUR")
        = .error (.rateNotFound (codes "EUR") (codes "EUR")) from rfl] at h
  exact Except.noConfusion h

/-- C2 (status: corrected).  `resolve(X, X)` is not an implicit identity:
it returns 1.0 only when the resolution cascade happens to produce it —
for X ≠ USD with `X_X` uncached and `X_USD` cached at a nonzero finite
rate, double triangulation yields `rate(X_USD) / rate(X_USD) = 1.0`; when
neither `X_X` nor `X_USD` is cached, it fails with
RateNotFoundError(X, X). -/
theorem C2_identity_amended :
    (∀ (rates : List (Str × PyFloat)) (X : Str) (q : ℚ),
        X ≠ BASE_CURRENCY →
        dictGet rates (pairKey X X) = none →
        dictGet rates (pairKey X BASE_CURRENCY) = some (.finite q) →
        q ≠ 0 →
        _get_exchange_rate rates X X = .ok (.finite 1)) ∧
    (∀ (rates : List (Str × PyFloat)) (X : Str),
        dictGet rates (pairKey X X) = none →
        dictGet rates (pairKey X BASE_CURRENCY) = none →
        _get_exchange_rate rates X X = .error (.rateNotFound X X)) := by
  constructor
  · intro rates X q hX h1 h2 hq
    simp [_get_exchange_rate, h1, h2, anchor_step, hX, PyFloat.div, hq, div_self]
  · intro rates X h1 h2
    by_cases hX : X = BASE_CURRENCY
    · subst hX
      simp [_get_exchange_rate, h1, h2, anchor_step]
    · simp [_get_exchange_rate, h1, h2, anchor_step, hX]

/-- C2 amended claim, applied at concrete inputs: `EUR_USD = 2` cached
gives `resolve(EUR, EUR) = 1.0`; an empty cache gives
RateNotFoundError(GBP, GBP). -/
theorem C2_identity_amended_witness :
    _get_exchange_rate [(pairKey (codes "EUR") BASE_CURRENCY, PyFloat.finite 2)]
        (codes "EUR") (codes "EUR") = .ok (.finite 1) ∧
    _get_exchange_rate [] (codes "GBP") (codes "GBP")
        = .error (.rateNotFound (codes "GBP") (codes "GBP")) := by
  exact ⟨C2_identity_amended.1 _ _ 2 (by decide) rfl rfl (by norm_num),
         C2_identity_amended.2 [] (codes "GBP") rfl rfl⟩

/-- C3 (status: confirmed).  For distinct currencies the implementation's
resolution equals the spec's ordered-fallback cascade `resolveSpec`:
direct pair, inverse pair, single triangulation at the anchor, double
triangulation, and finally RateNotFoundError(from, to). -/
theorem C3_resolution_order (pairs : List (Str × PyFloat)) (f t : Str) (hft : f ≠ t) :
    _get_exchange_rate pairs f t = resolveSpec pairs f t := by
  cases h1 : dictGet pairs (pairKey f t) <;>
    cases h2 : dictGet pairs (pairKey t f) <;>
      cases h3 : dictGet pairs (pairKey f BASE_CURRENCY) <;>
        cases h4 : dictGet pairs (pairKey t BASE_CURRENCY) <;>
          by_cases hf : f = BASE_CURRENCY <;>
            by_cases ht : t = BASE_CURRENCY <;>
              simp_all [_get_exchange_rate, resolveSpec, anchor_step, firstSome]

/-- C3 applied at a concrete input: EUR → USD with only EUR_USD cached. -/
theorem C3_resolution_order_witness :
    codes "EUR" ≠ codes "USD" ∧
    _get_exchange_rate [(pairKey (codes "EUR") (codes "USD"), PyFloat.finite 2)]
        (codes "EUR") (codes "USD")
      = resolveSpec [(pairKey (codes "EUR") (codes "USD"), PyFloat.finite 2)]
        (codes "EUR") (codes "USD") :=
  ⟨by decide, C3_resolution_order _ _ _ (by decide)⟩

/-- C8 counterexample: `deposit` accepts +infinity and NaN — the
`amount <= 0` check is False for both, so no InvalidAmountError-style
ValueError is raised and the non-finite amount is added to the balance. -/
theorem C8_nonfinite_deposit_counterexample :
    Wallet.deposit ⟨codes "USD", .finite 0⟩ .inf = .ok ⟨codes "USD", .inf⟩ ∧
    Wallet.deposit ⟨codes "USD", .finite 0⟩ .nan = .ok ⟨codes "USD", .nan⟩ := by
  constructor <;> rfl

/-- C8 (status: corrected).  `deposit` fails with the InvalidAmountError
ValueError exactly when `amount <= 0` under float comparison — NaN and
+infinity pass the check and are added; `withdraw` fails the same way on
`amount <= 0`, fails with `InsufficientFundsError(currency, available,
requested)` exactly when `balance < amount`, and otherwise subtracts;
`balance < balance` is always False, so withdrawing the exact balance
succeeds. -/
theorem C8_amounts_amended (w : Wallet) (a : PyFloat) :
    (PyFloat.le a (.finite 0) = true → w.deposit a = .error .invalidAmount) ∧
    (PyFloat.le a (.finite 0) = false →
        w.deposit a = .ok { w with balance := w.balance.add a }) ∧
    (PyFloat.le a (.finite 0) = true → w.withdraw a = .error .invalidAmount) ∧
    (PyFloat.le a (.finite 0) = false → PyFloat.lt w.balance a = true →
        w.withdraw a = .error (.insufficientFunds w.currency_code w.balance a)) ∧
    (PyFloat.le a (.finite 0) = false → PyFloat.lt w.balance a = false →
        w.withdraw a = .ok { w with balance := w.balance.sub a }) ∧
    PyFloat.le .nan (.finite 0) = false ∧
    PyFloat.le .inf (.finite 0) = false ∧
    PyFloat.lt w.balance w.balance = false := by
  refine ⟨?_, ?_, ?_, ?_, ?_, rfl, rfl, ?_⟩
  · intro h
    simp [Wallet.deposit, Wallet.validate_amount, h, Bind.bind, Except.bind]
  · intro h
    simp [Wallet.deposit, Wallet.validate_amount, h, Bind.bind, Except.bind]
  · intro h
    simp [Wallet.withdraw, Wallet.validate_amount, h, Bind.bind, Except.bind]
  · intro h h2
    simp [Wallet.withdraw, Wallet.validate_amount, h, h2, Bind.bind, Except.bind]
  · intro h h2
    simp [Wallet.withdraw, Wallet.validate_amount, h, h2, Bind.bind, Except.bind]
  · cases w.balance <;> simp [PyFloat.lt]

/-- C8 amended claim at concrete inputs: withdrawing the exact balance
succeeds; depositing 0 raises the InvalidAmountError ValueError. -/
theorem C8_amounts_amended_witness :
    Wallet.withdraw ⟨codes "USD", .finite 5⟩ (.finite 5)
        = .ok { currency_code := codes "USD", balance := (PyFloat.finite 5).sub (.finite 5) } ∧
    Wallet.deposit ⟨codes "USD", .finite 5⟩ (.finite 0) = .error .invalidAmount :=
  ⟨(C8_amounts_amended ⟨codes "USD", .finite 5⟩ (.finite 5)).2.2.2.2.1 (by decide) (by decide),
   (C8_amounts_amended ⟨codes "USD", .finite 5⟩ (.finite 0)).1 (by decide)⟩

theorem run_ops_spec (ops : List LedgerOp) :
    ∀ w w', run_ops w ops = .ok w' →
      w'.currency_code = w.currency_code ∧
      w'.balance = (w.balance.add (deposits_total ops)).sub (withdrawals_total ops) := by
  induction ops with
  | nil =>
    intro w w' h
    simp [run_ops] at h
    subst h
    simp [deposits_total, withdrawals_total, PyFloat.add_zero', PyFloat.sub_zero']
  | cons op rest ih =>
    intro w w' h
    cases op with
    | deposit a =>
      rcases hd : w.deposit a with e | w2 <;>
        simp [run_ops, apply_op, Bind.bind, Except.bind, hd] at h
      obtain ⟨ha, hw2⟩ := (Wallet.deposit_ok_iff w w2 a).mp hd
      obtain ⟨hcc, hbal⟩ := ih w2 w' h
      subst hw2
      refine ⟨hcc, ?_⟩
      rw [hbal]
      simp [deposits_total, withdrawals_total, PyFloat.add_assoc']
    | withdraw a =>
      rcases hd : w.withdraw a with e | w2 <;>
        simp [run_ops, apply_op, Bind.bind, Except.bind, hd] at h
      obtain ⟨ha, hlt, hw2⟩ := (Wallet.withdraw_ok_iff w w2 a).mp hd
      obtain ⟨hcc, hbal⟩ := ih w2 w' h
      subst hw2
      refine ⟨hcc, ?_⟩
      rw [hbal]
      simp only [withdrawals_total, deposits_total]
      rw [PyFloat.add_sub_swap, PyFloat.sub_sub']

theorem good_deposit (b a : PyFloat) (hb : GoodBalance b)
    (ha : PyFloat.le a (.finite 0) = false) : GoodBalance (b.add a) := by
  rcases hb with rfl | rfl | ⟨q, rfl, hq⟩
  · cases a <;> simp [PyFloat.add, GoodBalance]
  · cases a <;> simp [PyFloat.add, PyFloat.le, GoodBalance]
  · cases a with
    | finite p =>
      simp [PyFloat.le, decide_eq_false_iff_not, not_le] at ha
      exact Or.inr (Or.inr ⟨q + p, rfl, by linarith⟩)
    | inf => exact Or.inr (Or.inl rfl)
    | ninf => simp [PyFloat.le] at ha
    | nan => exact Or.inl rfl

theorem good_withdraw (b a : PyFloat) (hb : GoodBalance b)
    (h2 : PyFloat.lt b a = false) : GoodBalance (b.sub a) := by
  rcases hb with rfl | rfl | ⟨q, rfl, hq⟩
  · cases a <;> simp [PyFloat.sub, PyFloat.neg, PyFloat.add, GoodBalance]
  · cases a <;> simp [PyFloat.sub, PyFloat.neg, PyFloat.add, GoodBalance]
  · cases a with
    | finite p =>
      simp [PyFloat.lt, decide_eq_false_iff_not, not_lt] at h2
      exact Or.inr (Or.inr ⟨q + -p, rfl, by linarith⟩)
    | inf => simp [PyFloat.lt] at h2
    | ninf => exact Or.inr (Or.inl rfl)
    | nan => exact Or.inl rfl

theorem good_nonneg (b : PyFloat) (hb : GoodBalance b) :
    PyFloat.lt b (.finite 0) = false := by
  rcases hb with rfl | rfl | ⟨q, rfl, hq⟩
  · rfl
  · rfl
  · simp [PyFloat.lt]
    linarith

theorem run_ops_good (ops : List LedgerOp) :
    ∀ w w', GoodBalance w.balance → run_ops w ops = .ok w' → GoodBalance w'.balance := by
  induction ops with
  | nil =>
    intro w w' hg h
    simp [run_ops] at h
    subst h
    exact hg
  | cons op rest ih =>
    intro w w' hg h
    cases op with
    | deposit a =>
      rcases hd : w.deposit a with e | w2 <;>
        simp [run_ops, apply_op, Bind.bind, Except.bind, hd] at h
      obtain ⟨ha, hw2⟩ := (Wallet.deposit_ok_iff w w2 a).mp hd
      subst hw2
      exact ih _ w' (good_deposit _ _ hg ha) h
    | withdraw a =>
      rcases hd : w.withdraw a with e | w2 <;>
        simp [run_ops, apply_op, Bind.bind, Except.bind, hd] at h
      obtain ⟨ha, hlt, hw2⟩ := (Wallet.withdraw_ok_iff w w2 a).mp hd
      subst hw2
      exact ih _ w' (good_withdraw _ _ hg hlt) h

theorem wallet_init_default_errors (c : Str) : ∃ e, Wallet.init c = .error e := by
  unfold Wallet.init
  cases h : Wallet.validate_currency c with
  | error e => exact ⟨e, by simp [Bind.bind, Except.bind, h]⟩
  | ok u =>
    cases u
    refine ⟨.invalidAmount, ?_⟩
    simp [Bind.bind, Except.bind, h, Wallet.deposit, Wallet.validate_amount, PyFloat.le]

/-- C9 (status: confirmed).  Starting from a zero-balance wallet, any
sequence of successful deposits and withdrawals ends with
`balance = Σ deposits − Σ withdrawals` (under the float arithmetic of the
model), the balance is never negative in any reachable state, and loading
a persisted wallet with a negative stored balance is rejected: the
`balance` setter raises on negative values, and the load path raises for
every stored wallet (it constructs `Wallet(code)`, which fails as in C1),
so a negative balance is never accepted. -/
theorem C9_ledger_invariant (code : Str) (ops : List LedgerOp) :
    (∀ w', run_ops ⟨code, .finite 0⟩ ops = .ok w' →
        w'.balance = (deposits_total ops).sub (withdrawals_total ops) ∧
        PyFloat.lt w'.balance (.finite 0) = false) ∧
    (∀ l1 l2 w'', ops = l1 ++ l2 → run_ops ⟨code, .finite 0⟩ l1 = .ok w'' →
        PyFloat.lt w''.balance (.finite 0) = false) ∧
    (∀ (w : Wallet) (q : ℚ), q < 0 →
        Wallet.set_balance w (.finite q) = .error .negativeBalance) ∧
    (∀ q : ℚ, q < 0 → ∃ e, load_wallet code (.finite q) = .error e) := by
  refine ⟨?_, ?_, ?_, ?_⟩
  · intro w' h
    obtain ⟨hcc, hbal⟩ := run_ops_spec ops _ w' h
    constructor
    · rw [hbal]
      simp [PyFloat.zero_add']
    · exact good_nonneg _ (run_ops_good ops _ w' (Or.inr (Or.inr ⟨0, rfl, le_refl 0⟩)) h)
  · intro l1 l2 w'' hsplit h
    exact good_nonneg _ (run_ops_good l1 _ w'' (Or.inr (Or.inr ⟨0, rfl, le_refl 0⟩)) h)
  · intro w q hq
    simp [Wallet.set_balance, PyFloat.lt, hq, not_le.mpr hq]
  · intro q hq
    obtain ⟨e, he⟩ := wallet_init_default_errors code
    exact ⟨e, by simp [load_wallet, Bind.bind, Except.bind, he]⟩

/-- C9 applied at concrete inputs: deposit 5 then withdraw 3 ends at
balance 2 = 5 − 3, every reachable state is non-negative, and a stored
balance of −1 is rejected. -/
theorem C9_ledger_invariant_witness :
    (PyFloat.finite 2
        = (deposits_total [LedgerOp.deposit (.finite 5), LedgerOp.withdraw (.finite 3)]).sub
            (withdrawals_total [LedgerOp.deposit (.finite 5), LedgerOp.withdraw (.finite 3)]) ∧
      PyFloat.lt (.finite 2) (.finite 0) = false) ∧
    PyFloat.lt (PyFloat.finite 5) (.finite 0) = false ∧
    Wallet.set_balance ⟨codes "USD", .finite 7⟩ (.finite (-1)) = .error .negativeBalance ∧
    (∃ e, load_wallet (codes "USD") (.finite (-1)) = .error e) := by
  have hrun : run_ops ⟨codes "USD", .finite 0⟩
      [LedgerOp.deposit (.finite 5), LedgerOp.withdraw (.finite 3)]
        = .ok ⟨codes "USD", .finite 2⟩ := by
    norm_num [run_ops, apply_op, Wallet.deposit, Wallet.withdraw, Wallet.validate_amount,
      PyFloat.le, PyFloat.lt, PyFloat.add, PyFloat.sub, PyFloat.neg, Bind.bind, Except.bind]
  have hrun1 : run_ops ⟨codes "USD", .finite 0⟩ [LedgerOp.deposit (.finite 5)]
      = .ok ⟨codes "USD", .finite 5⟩ := by
    norm_num [run_ops, apply_op, Wallet.deposit, Wallet.validate_amount,
      PyFloat.le, PyFloat.add, Bind.bind, Except.bind]
  refine ⟨(C9_ledger_invariant (codes "USD") _).1 ⟨codes "USD", .finite 2⟩ hrun,
          (C9_ledger_invariant (codes "USD")
              [LedgerOp.deposit (.finite 5), LedgerOp.withdraw (.finite 3)]).2.1
            [LedgerOp.deposit (.finite 5)] [LedgerOp.withdraw (.finite 3)]
            ⟨codes "USD", .finite 5⟩ rfl hrun1,
          (C9_ledger_invariant (codes "USD") []).2.2.1 ⟨codes "USD", .finite 7⟩ (-1) (by norm_num),
          (C9_ledger_invariant (codes "USD") []).2.2.2 (-1) (by norm_num)⟩

theorem upChar_idem (c : Nat) : upChar (upChar c) = upChar c := by
  unfold upChar
  split_ifs <;> omega

theorem pyUpper_idem (s : Str) : pyUpper (pyUpper s) = pyUpper s := by
  induction s with
  | nil => rfl
  | cons c cs ih =>
    simp only [pyUpper, List.map_cons] at ih ⊢
    rw [upChar_idem]
    exact congrArg _ ih

theorem isSpaceCode_upChar (c : Nat) : isSpaceCode (upChar c) = isSpaceCode c := by
  by_cases h : 97 ≤ c ∧ c ≤ 122
  · have h1 : isSpaceCode (c - 32) = false := by
      simp only [isSpaceCode, Bool.or_eq_false_iff, decide_eq_false_iff_not]
      omega
    have h2 : isSpaceCode c = false := by
      simp only [isSpaceCode, Bool.or_eq_false_iff, decide_eq_false_iff_not]
      omega
    simp [upChar, h, h1, h2]
  · simp [upChar, h]

theorem pyStrip_pyUpper (s : Str) : pyStrip (pyUpper s) = pyUpper (pyStrip s) := by
  have hpf : (isSpaceCode ∘ upChar) = isSpaceCode := funext isSpaceCode_upChar
  unfold pyStrip pyUpper
  rw [List.dropWhile_map, hpf, ← List.map_reverse, List.dropWhile_map, hpf, List.map_reverse]

theorem dictSet_fst_mem {α : Type} (d : List (Str × α)) (k : Str) (v : α) :
    ∀ x ∈ (dictSet d k v).map Prod.fst, x ∈ d.map Prod.fst ∨ x = k := by
  induction d with
  | nil =>
    intro x hx
    simp [dictSet] at hx
    exact Or.inr hx
  | cons hd tl ih =>
    obtain ⟨k', v'⟩ := hd
    intro x hx
    by_cases h : k' = k
    · simp [dictSet, h] at hx
      rcases hx with rfl | hx
      · exact Or.inr rfl
      · exact Or.inl (by simp; exact Or.inr hx)
    · simp [dictSet, h] at hx
      rcases hx with rfl | hx
      · exact Or.inl (by simp)
      · rcases ih x (by simpa using hx) with h2 | h2
        · exact Or.inl (by simp at h2 ⊢; exact Or.inr h2)
        · exact Or.inr h2

/-- C10 (status: confirmed).  `add_currency` and `get_wallet` upper-case
their argument before use, so they are case-insensitive; the use-case
level validation (`validate_currency_code`, through which `buy_currency`
and `sell_currency` reach `deposit`/`withdraw`) is case-insensitive as
well; and `add_currency` only ever stores upper-case wallet keys. -/
theorem C10_currency_code_normalization (p : Portfolio) (c : Str) :
    Portfolio.add_currency p (pyUpper c) = Portfolio.add_currency p c ∧
    Portfolio.get_wallet p (pyUpper c) = Portfolio.get_wallet p c ∧
    validate_currency_code (pyUpper c) = validate_currency_code c ∧
    (KeysUpper p.wallets →
      ∀ w p2, Portfolio.add_currency p c = .ok (w, p2) → KeysUpper p2.wallets) := by
  refine ⟨?_, ?_, ?_, ?_⟩
  · simp [Portfolio.add_currency, pyUpper_idem]
  · simp [Portfolio.get_wallet, pyUpper_idem]
  · simp [validate_currency_code, pyStrip_pyUpper, pyUpper_idem]
  · intro hk w p2 h
    simp only [Portfolio.add_currency] at h
    rcases hg : dictGet p.wallets (pyUpper c) with _ | w0
    · rw [hg] at h
      rcases hi : Wallet.init (pyUpper c) with e | nw
      · rw [hi] at h
        exact Except.noConfusion h
      · rw [hi] at h
        simp at h
        obtain ⟨-, rfl⟩ := h
        intro x hx
        rcases dictSet_fst_mem p.wallets (pyUpper c) nw x hx with h2 | rfl
        · exact hk x h2
        · exact pyUpper_idem c
    · rw [hg] at h
      simp at h
      obtain ⟨-, rfl⟩ := h
      exact hk

/-- C10 applied at a concrete input: on a portfolio holding "USD", the
code "usd" addresses the same wallet as "USD", and the stored keys stay
upper-case. -/
theorem C10_currency_code_normalization_witness :
    Portfolio.add_currency ⟨1, [(codes "USD", ⟨codes "USD", .finite 5⟩)]⟩ (pyUpper (codes "usd"))
        = Portfolio.add_currency ⟨1, [(codes "USD", ⟨codes "USD", .finite 5⟩)]⟩ (codes "usd") ∧
    KeysUpper [(codes "USD", ⟨codes "USD", .finite 5⟩)] :=
  ⟨(C10_currency_code_normalization ⟨1, [(codes "USD", ⟨codes "USD", .finite 5⟩)]⟩ (codes "usd")).1,
   (C10_currency_code_normalization ⟨1, [(codes "USD", ⟨codes "USD", .finite 5⟩)]⟩ (codes "usd")).2.2.2
     (by intro k hk; simp at hk; subst hk; rfl)
     ⟨codes "USD", .finite 5⟩ ⟨1, [(codes "USD", ⟨codes "USD", .finite 5⟩)]⟩ rfl⟩

/-- C4 counterexample: a source name recognized by no filter branch
("bogus") leaves all configured providers in place — the run performs an
update instead of being a no-op with an empty provider list. -/
theorem C4_unknown_source_counterexample :
    (run_update
        [⟨.exchangerate,
          .ok [(codes "EUR_USD",
                { rate := .finite 10, updated_at := codes "T", source := codes "S" })]⟩]
        (some (codes "bogus")) ⟨none, none⟩ [] (codes "t0") (codes "t1")).results.updated_pairs
      = [codes "EUR_USD"] ∧
    [codes "EUR_USD"] ≠ ([] : List Str) := by
  constructor
  · rfl
  · simp

/-- C4 (status: corrected).  Only the two recognized source names
"coingecko" and "exchangerate" (case-insensitively, and non-empty) filter
the provider list; when such a name matches no configured client the run
uses an empty provider list and is a successful no-op: no updates, no
errors, `success = true`, the loaded pairs persisted unchanged with a new
`last_refresh`, and an untouched history.  (Any other source name
disables filtering and runs all providers — see the counterexample.) -/
theorem C4_source_filter_amended (clients : List ApiClient) (loaded : LoadedRatesDoc)
    (history0 : List HistoryRecord) (t_start t_end : Str) (s : Str) (k : ClientKind)
    (hs : s ≠ [])
    (hname : pyLower s = filter_name k)
    (hnone : ∀ c ∈ clients, c.kind ≠ k) :
    (run_update clients (some s) loaded history0 t_start t_end).results.updated_pairs = [] ∧
    (run_update clients (some s) loaded history0 t_start t_end).results.errors = [] ∧
    (run_update clients (some s) loaded history0 t_start t_end).results.success = true ∧
    (run_update clients (some s) loaded history0 t_start t_end).saved.pairs
        = loaded.pairs.getD [] ∧
    (run_update clients (some s) loaded history0 t_start t_end).saved.last_refresh = t_end ∧
    (run_update clients (some s) loaded history0 t_start t_end).history = history0 := by
  have hsel : select_clients clients (some s) = [] := by
    cases k with
    | coingecko =>
      simp only [select_clients, hs, hname, filter_name, if_false, if_true]
      rw [List.filter_eq_nil_iff]
      intro c hc
      simpa using hnone c hc
    | exchangerate =>
      simp only [select_clients, hs, hname, filter_name, if_false]
      rw [if_neg (show ¬ (codes "exchangerate" = codes "coingecko") by decide)]
      simp only [if_true]
      rw [List.filter_eq_nil_iff]
      intro c hc
      simpa using hnone c hc
  simp [run_update, hsel, run_clients]

/-- C4 amended claim at a concrete input: source "exchangerate" with only
a (failing) CoinGecko client configured is a successful no-op that never
consults the client. -/
theorem C4_source_filter_amended_witness :
    (run_update [⟨.coingecko, .error (codes "boom")⟩] (some (codes "exchangerate"))
        ⟨none, none⟩ [] (codes "t0") (codes "t1")).results.updated_pairs = [] ∧
    (run_update [⟨.coingecko, .error (codes "boom")⟩] (some (codes "exchangerate"))
        ⟨none, none⟩ [] (codes "t0") (codes "t1")).results.errors = [] ∧
    (run_update [⟨.coingecko, .error (codes "boom")⟩] (some (codes "exchangerate"))
        ⟨none, none⟩ [] (codes "t0") (codes "t1")).results.success = true ∧
    (run_update [⟨.coingecko, .error (codes "boom")⟩] (some (codes "exchangerate"))
        ⟨none, none⟩ [] (codes "t0") (codes "t1")).saved.pairs
        = (Option.getD (none : Option (List (Str × RateEntry))) []) ∧
    (run_update [⟨.coingecko, .error (codes "boom")⟩] (some (codes "exchangerate"))
        ⟨none, none⟩ [] (codes "t0") (codes "t1")).saved.last_refresh = codes "t1" ∧
    (run_update [⟨.coingecko, .error (codes "boom")⟩] (some (codes "exchangerate"))
        ⟨none, none⟩ [] (codes "t0") (codes "t1")).history = [] :=
  C4_source_filter_amended [⟨.coingecko, .error (codes "boom")⟩] ⟨none, none⟩ []
    (codes "t0") (codes "t1") (codes "exchangerate") .exchangerate
    (by decide) (by decide)
    (by intro c hc; simp at hc; subst hc; decide)

theorem apply_new_rates_spec (k : ClientKind) (nr : List (Str × RateEntry)) :
    ∀ pairs results history,
      apply_new_rates k nr pairs results history =
        (nr.foldl (fun a pr => dictSet a pr.1 pr.2) pairs,
         { results with updated_pairs := results.updated_pairs ++ nr.map Prod.fst },
         nr.foldl (fun h pr => append_to_history h (make_history_record k pr.1 pr.2)) history) := by
  induction nr with
  | nil => intro pairs results history; simp [apply_new_rates]
  | cons pr rest ih =>
    intro pairs results history
    obtain ⟨pair, rd⟩ := pr
    simp [apply_new_rates, ih]

theorem run_clients_spec (cs : List ApiClient) :
    ∀ pairs results history,
      (run_clients cs pairs results history).2.1.errors
          = results.errors ++ cs.filterMap client_error_entry ∧
      (run_clients cs pairs results history).2.1.success
          = (results.success && cs.all fetch_ok) ∧
      (run_clients cs pairs results history).2.1.updated_pairs
          = results.updated_pairs ++ (cs.filterMap client_updated_keys).flatten ∧
      (run_clients cs pairs results history).1 = merged_pairs cs pairs ∧
      (run_clients cs pairs results history).2.1.timestamp = results.timestamp := by
  induction cs with
  | nil => intro pairs results history; simp [run_clients, merged_pairs]
  | cons c rest ih =>
    intro pairs results history
    rcases hf : c.fetch_rates with e | nr
    · have := ih pairs
        { results with errors := results.errors ++ [fetch_error_message c.kind e],
                       success := false } history
      simp [run_clients, hf, this, client_error_entry, client_updated_keys, fetch_ok,
            merged_pairs]
    · rw [show run_clients (c :: rest) pairs results history
            = run_clients rest (apply_new_rates c.kind nr pairs results history).1
                (apply_new_rates c.kind nr pairs results history).2.1
                (apply_new_rates c.kind nr pairs results history).2.2 from by
          simp [run_clients, hf]]
      rw [apply_new_rates_spec]
      have := ih (nr.foldl (fun a pr => dictSet a pr.1 pr.2) pairs)
        { results with updated_pairs := results.updated_pairs ++ nr.map Prod.fst }
        (nr.foldl (fun h pr => append_to_history h (make_history_record c.kind pr.1 pr.2))
          history)
      simp [this, hf, client_error_entry, client_updated_keys, fetch_ok, merged_pairs]

/-- C5 (status: confirmed).  In an unfiltered run, each provider failure
contributes exactly one error message (in provider order) and never stops
the loop; the merged snapshot is persisted with the run's fresh
`last_refresh` stamp regardless of failures; the summary's `success` is
true exactly when the error list is empty (i.e. no provider errored); and
`updated_pairs` lists every pair key merged from the successful
providers, in order. -/
theorem C5_partial_failure_tolerance (clients : List ApiClient) (loaded : LoadedRatesDoc)
    (history0 : List HistoryRecord) (t_start t_end : Str) :
    (run_update clients none loaded history0 t_start t_end).results.errors
        = clients.filterMap client_error_entry ∧
    ((run_update clients none loaded history0 t_start t_end).results.success = true ↔
        (run_update clients none loaded history0 t_start t_end).results.errors = []) ∧
    (run_update clients none loaded history0 t_start t_end).results.updated_pairs
        = (clients.filterMap client_updated_keys).flatten ∧
    (run_update clients none loaded history0 t_start t_end).saved.pairs
        = merged_pairs clients (loaded.pairs.getD []) ∧
    (run_update clients none loaded history0 t_start t_end).saved.last_refresh = t_end ∧
    (run_update clients none loaded history0 t_start t_end).results.timestamp = t_start := by
  obtain ⟨h1, h2, h3, h4, h5⟩ := run_clients_spec clients (loaded.pairs.getD [])
    { success := true, updated_pairs := [], errors := [], timestamp := t_start } history0
  have hiff : (clients.all fetch_ok = true) ↔ clients.filterMap client_error_entry = [] := by
    rw [List.all_eq_true, List.filterMap_eq_nil_iff]
    constructor
    · intro h c hc
      have := h c hc
      rcases hf : c.fetch_rates with e | nr
      · rw [fetch_ok, hf] at this
        exact absurd this (by simp)
      · simp [client_error_entry, hf]
    · intro h c hc
      have := h c hc
      rcases hf : c.fetch_rates with e | nr
      · rw [client_error_entry, hf] at this
        exact absurd this (by simp)
      · simp [fetch_ok, hf]
  refine ⟨?_, ?_, ?_, ?_, rfl, ?_⟩
  · simpa [run_update, select_clients] using h1
  · have he : (run_update clients none loaded history0 t_start t_end).results.errors
        = clients.filterMap client_error_entry := by
      simpa [run_update, select_clients] using h1
    have hsc : (run_update clients none loaded history0 t_start t_end).results.success
        = clients.all fetch_ok := by
      simpa [run_update, select_clients] using h2
    rw [he, hsc]
    exact hiff
  · simpa [run_update, select_clients] using h3
  · simpa [run_update, select_clients] using h4
  · simpa [run_update, select_clients] using h5

/-- C7 counterexample: a stored `last_refresh` that is a JSON number (42)
is a value whose timestamp cannot be parsed, yet `are_rates_fresh` raises
TypeError (`datetime.fromisoformat` on a non-string; only ValueError is
caught) instead of returning false. -/
theorem C7_nonstring_timestamp_counterexample :
    are_rates_fresh (fun _ => none) (.dict (some (.jnum 42))) 0 300 = .error .typeError ∧
    are_rates_fresh (fun _ => none) (.dict (some (.jnum 42))) 0 300 ≠ .ok false := by
  refine ⟨rfl, ?_⟩
  intro h
  rw [show are_rates_fresh (fun _ => none) (.dict (some (.jnum 42))) 0 300
        = .error .typeError from rfl] at h
  exact Except.noConfusion h

/-- C7 (status: corrected).  `is_fresh` is true iff `last_refresh` exists
as a string that parses to a time `t` with `now − t < ttl`; a malformed
string timestamp yields false without raising (the ValueError is caught);
but a stored non-string timestamp raises TypeError, which the
`except ValueError` clause does not intercept. -/
theorem C7_freshness_amended (parse_iso : Str → Option ℚ) (doc : LoadedRates)
    (now ttl : ℚ) :
    (are_rates_fresh parse_iso doc now ttl = .ok true ↔
        ∃ s t, doc = .dict (some (.jstr s)) ∧ parse_iso s = some t ∧ now - t < ttl) ∧
    (∀ s, doc = .dict (some (.jstr s)) → parse_iso s = none →
        are_rates_fresh parse_iso doc now ttl = .ok false) ∧
    ((doc = .falsy ∨ doc = .dict none ∨ ∃ s, doc = .dict (some (.jstr s))) →
        ∃ b, are_rates_fresh parse_iso doc now ttl = .ok b) ∧
    (∀ v, doc = .dict (some v) → (∀ s, v ≠ .jstr s) →
        are_rates_fresh parse_iso doc now ttl = .error .typeError) := by
  refine ⟨?_, ?_, ?_, ?_⟩
  · constructor
    · intro h
      rcases doc with _ | lr
      · exact absurd h (by simp [are_rates_fresh])
      · rcases lr with _ | v
        · exact absurd h (by simp [are_rates_fresh])
        · rcases v with s | q | _
          · rcases hp : parse_iso s with _ | t
            · rw [are_rates_fresh, hp] at h
              simp at h
            · rw [are_rates_fresh, hp] at h
              simp at h
              exact ⟨s, t, rfl, hp, h⟩
          · exact absurd h (by simp [are_rates_fresh])
          · exact absurd h (by simp [are_rates_fresh])
    · rintro ⟨s, t, rfl, hp, hlt⟩
      rw [are_rates_fresh, hp]
      simp [hlt]
  · rintro s rfl hp
    rw [are_rates_fresh, hp]
  · rintro (rfl | rfl | ⟨s, rfl⟩)
    · exact ⟨false, rfl⟩
    · exact ⟨false, rfl⟩
    · rcases hp : parse_iso s with _ | t
      · exact ⟨false, by rw [are_rates_fresh, hp]⟩
      · exact ⟨decide (now - t < ttl), by rw [are_rates_fresh, hp]⟩
  · rintro v rfl hv
    rcases v with s | q | _
    · exact absurd rfl (hv s)
    · rfl
    · rfl

/-- C7 amended claim at concrete inputs: a parsing string inside the TTL
is fresh; a malformed string is stale without raising; a non-string (null)
raises TypeError. -/
theorem C7_freshness_amended_witness :
    are_rates_fresh (fun s => if s = codes "T" then some 10 else none)
        (.dict (some (.jstr (codes "T")))) 100 300 = .ok true ∧
    are_rates_fresh (fun _ => none) (.dict (some (.jstr (codes "X")))) 100 300 = .ok false ∧
    are_rates_fresh (fun _ => none) (.dict (some .jnull)) 100 300 = .error .typeError :=
  ⟨(C7_freshness_amended _ _ 100 300).1.mpr ⟨codes "T", 10, rfl, by simp, by norm_num⟩,
   (C7_freshness_amended _ _ 100 300).2.1 (codes "X") rfl rfl,
   (C7_freshness_amended _ _ 100 300).2.2.2 .jnull rfl (fun s => by simp)⟩

theorem div_error_eq (x y : PyFloat) (e : Err) (h : PyFloat.div x y = .error e) :
    e = .zeroDivision := by
  unfold PyFloat.div at h
  split at h <;> simp_all

theorem resolver_rateNotFound_lookups (rates : List (Str × PyFloat)) (f t : Str) (a b : Str)
    (h : _get_exchange_rate rates f t = .error (.rateNotFound a b)) :
    dictGet rates (pairKey f t) = none ∧ dictGet rates (pairKey t f) = none := by
  rcases h1 : dictGet rates (pairKey f t) with _ | r
  · rcases h2 : dictGet rates (pairKey t f) with _ | r2
    · exact ⟨rfl, rfl⟩
    · rw [_get_exchange_rate, h1, h2] at h
      have := div_error_eq _ _ _ h
      exact absurd this (by simp)
  · rw [_get_exchange_rate, h1] at h
    exact Except.noConfusion h

theorem total_loop_eq (rates : List (Str × PyFloat)) (base : Str) :
    ∀ (ws : List (Str × Wallet)) (acc : PyFloat),
      total_value_loop rates base ws acc
        = match sum_wallet_values rates base (ws.map Prod.snd) with
          | .error e => .error e
          | .ok s => .ok (acc.add s) := by
  intro ws
  induction ws with
  | nil => intro acc; simp [total_value_loop, sum_wallet_values, PyFloat.add_zero']
  | cons kw rest ih =>
    intro acc
    obtain ⟨kk, w⟩ := kw
    by_cases hb : w.currency_code = base
    · rw [show total_value_loop rates base ((kk, w) :: rest) acc
            = total_value_loop rates base rest (acc.add w.balance) from by
          simp [total_value_loop, hb]]
      rw [ih]
      rcases hs : sum_wallet_values rates base (rest.map Prod.snd) with e | s <;>
        simp [sum_wallet_values, wallet_value, hb, hs, Bind.bind, Except.bind,
          PyFloat.add_assoc']
    · rcases hd : dictGet rates (pairKey w.currency_code base) with _ | r
      · rcases hi : dictGet rates (pairKey base w.currency_code) with _ | r
        · rw [show total_value_loop rates base ((kk, w) :: rest) acc
                = total_value_loop rates base rest acc from by
              simp [total_value_loop, hb, hd, hi]]
          rw [ih]
          rcases hs : sum_wallet_values rates base (rest.map Prod.snd) with e | s <;>
            simp [sum_wallet_values, wallet_value, hb, hd, hi, hs, Bind.bind, Except.bind,
              PyFloat.zero_add']
        · rcases hv : PyFloat.div w.balance r with e | v
          · rw [show total_value_loop rates base ((kk, w) :: rest) acc = .error e from by
                simp [total_value_loop, hb, hd, hi, hv]]
            simp [sum_wallet_values, wallet_value, hb, hd, hi, hv, Bind.bind, Except.bind]
          · rw [show total_value_loop rates base ((kk, w) :: rest) acc
                  = total_value_loop rates base rest (acc.add v) from by
                simp [total_value_loop, hb, hd, hi, hv]]
            rw [ih]
            rcases hs : sum_wallet_values rates base (rest.map Prod.snd) with e | s <;>
              simp [sum_wallet_values, wallet_value, hb, hd, hi, hv, hs, Bind.bind,
                Except.bind, PyFloat.add_assoc']
      · rw [show total_value_loop rates base ((kk, w) :: rest) acc
              = total_value_loop rates base rest (acc.add (w.balance.mul r)) from by
            simp [total_value_loop, hb, hd]]
        rw [ih]
        rcases hs : sum_wallet_values rates base (rest.map Prod.snd) with e | s <;>
          simp [sum_wallet_values, wallet_value, hb, hd, hs, Bind.bind, Except.bind,
            PyFloat.add_assoc']

/-- C6 counterexample: portfolio of 1 BTC, anchor EUR, cache
`{BTC_USD: 6, EUR_USD: 3}`.  The Resolver prices BTC → EUR at 2.0 by
double triangulation, so the claim's total would be `1 * 2.0 = 2.0`, but
`get_total_value` only consults the direct/inverse pairs and the wallet
contributes 0. -/
theorem C6_total_ignores_triangulation_counterexample :
    _get_exchange_rate [(codes "BTC_USD", .finite 6), (codes "EUR_USD", .finite 3)]
        (codes "BTC") (codes "EUR") = .ok (.finite 2) ∧
    PyFloat.mul (.finite 1) (.finite 2) = .finite 2 ∧
    Portfolio.get_total_value ⟨1, [(codes "BTC", ⟨codes "BTC", .finite 1⟩)]⟩
        [(codes "BTC_USD", .finite 6), (codes "EUR_USD", .finite 3)] (codes "EUR")
      = .ok (.finite 0) ∧
    Portfolio.get_total_value ⟨1, [(codes "BTC", ⟨codes "BTC", .finite 1⟩)]⟩
        [(codes "BTC_USD", .finite 6), (codes "EUR_USD", .finite 3)] (codes "EUR")
      ≠ .ok (.finite 2) := by
  have h6 : (6 : ℚ) / 3 = 2 := by norm_num
  have h12 : (1 : ℚ) * 2 = 2 := by norm_num
  refine ⟨?_, ?_, rfl, ?_⟩
  · rw [show _get_exchange_rate [(codes "BTC_USD", .finite 6), (codes "EUR_USD", .finite 3)]
          (codes "BTC") (codes "EUR") = .ok (.finite ((6 : ℚ) / 3)) from rfl, h6]
  · rw [show PyFloat.mul (.finite 1) (.finite 2) = .finite ((1 : ℚ) * 2) from rfl, h12]
  · intro h
    rw [show Portfolio.get_total_value ⟨1, [(codes "BTC", ⟨codes "BTC", .finite 1⟩)]⟩
          [(codes "BTC_USD", .finite 6), (codes "EUR_USD", .finite 3)] (codes "EUR")
        = .ok (.finite 0) from rfl] at h
    simp only [Except.ok.injEq, PyFloat.finite.injEq] at h
    norm_num at h

/-- C6 (status: corrected).  The portfolio total equals the sum of
per-wallet values computed from the direct pair (`balance * rate`) or the
inverse pair (`balance / rate`) only — triangulated rates are not used in
the total, so a wallet priceable only through the anchor contributes 0
(see the counterexample).  A wallet (other than the anchor currency)
whose currency has no resolvable rate at all contributes exactly 0 to the
total, and the per-wallet breakdown of `get_portfolio` flags it with
`rate = None` rather than dropping it. -/
theorem C6_valuation_amended (exchange_rates : List (Str × PyFloat)) (p : Portfolio)
    (base_currency : Str) :
    (Portfolio.get_total_value p exchange_rates base_currency
        = sum_wallet_values exchange_rates (pyUpper base_currency) (p.wallets.map Prod.snd)) ∧
    (∀ (w : Wallet) (a b : Str),
        w.currency_code ≠ pyUpper base_currency →
        _get_exchange_rate exchange_rates w.currency_code (pyUpper base_currency)
            = .error (.rateNotFound a b) →
        wallet_value exchange_rates (pyUpper base_currency) w = .ok (.finite 0)) ∧
    (∀ (code : Str) (w : Wallet) (a b : Str),
        _get_exchange_rate exchange_rates code (pyUpper base_currency)
            = .error (.rateNotFound a b) →
        wallet_info_entry exchange_rates (pyUpper base_currency) code w
            = .ok { currency := code, balance := w.balance,
                    rate := none, value_in_base := none }) := by
  refine ⟨?_, ?_, ?_⟩
  · rw [Portfolio.get_total_value, total_loop_eq]
    rcases hs : sum_wallet_values exchange_rates (pyUpper base_currency)
        (p.wallets.map Prod.snd) with e | s <;> simp [PyFloat.zero_add']
  · intro w a b hb h
    obtain ⟨h1, h2⟩ := resolver_rateNotFound_lookups _ _ _ _ _ h
    simp [wallet_value, hb, h1, h2]
  · intro code w a b h
    rw [wallet_info_entry, h]

/-- C6 amended claim at concrete inputs: with an empty cache, the 1-BTC
wallet has no resolvable rate to USD, contributes 0 to the total, and is
flagged `rate = None` in the breakdown. -/
theorem C6_valuation_amended_witness :
    Portfolio.get_total_value ⟨1, [(codes "BTC", ⟨codes "BTC", .finite 1⟩)]⟩ [] (codes "USD")
        = sum_wallet_values [] (pyUpper (codes "USD")) [⟨codes "BTC", .finite 1⟩] ∧
    wallet_value [] (pyUpper (codes "USD")) ⟨codes "BTC", .finite 1⟩ = .ok (.finite 0) ∧
    wallet_info_entry [] (pyUpper (codes "USD")) (codes "BTC") ⟨codes "BTC", .finite 1⟩
        = .ok { currency := codes "BTC", balance := PyFloat.finite 1,
                rate := none, value_in_base := none } :=
  ⟨(C6_valuation_amended [] ⟨1, [(codes "BTC", ⟨codes "BTC", .finite 1⟩)]⟩ (codes "USD")).1,
   (C6_valuation_amended [] ⟨1, [(codes "BTC", ⟨codes "BTC", .finite 1⟩)]⟩ (codes "USD")).2.1
     ⟨codes "BTC", .finite 1⟩ (codes "BTC") (pyUpper (codes "USD")) (by decide) rfl,
   (C6_valuation_amended [] ⟨1, [(codes "BTC", ⟨codes "BTC", .finite 1⟩)]⟩ (codes "USD")).2.2
     (codes "BTC") ⟨codes "BTC", .finite 1⟩ (codes "BTC") (pyUpper (codes "USD")) rfl⟩

end ValutaTrade
